import Mathlib

/-!
Shallow embedding of the ELL repository's `LSTMLayerNode.h` (nodes library):
the primitive recurrent cell node `LSTMNode` and its decomposition adapter
`LSTMLayerNode`.

The header in `src/` contains the class interfaces together with a few inline
member bodies (`IsCompilable`, `CanAcceptInputLayout`, `HasState`,
`WriteToArchive`, `ReadFromArchive`); the arithmetic bodies of
`Compute`, `Compile` and `Reset` are declared there but their definitions are
not part of the source tree, so those operations are modelled from the
specification (see the doc comments starting with `Modelled from the spec:`).

Numeric values are carried by an arbitrary commutative ring `R`; the
activation functions are fields of the configuration (in the source they are
externally supplied `Activation` objects), so concrete real-number activations
such as tanh and the logistic sigmoid appear only in theorem statements.
-/

namespace ELL

/-- Dot product of two flat buffers (shorter one wins, as with pointer-length
pairs of equal declared size). -/
def dot {R : Type} [CommRing R] (xs ys : List R) : R :=
  (List.zipWith (fun a b => a * b) xs ys).sum

/-- Matrix-vector product: the matrix is a list of rows. -/
def matVec {R : Type} [CommRing R] (M : List (List R)) (v : List R) : List R :=
  M.map (fun row => dot row v)

/-- Elementwise vector addition. -/
def vecAdd {R : Type} [CommRing R] (xs ys : List R) : List R :=
  List.zipWith (fun a b => a + b) xs ys

/-- Elementwise (Hadamard) vector product. -/
def vecHadamard {R : Type} [CommRing R] (xs ys : List R) : List R :=
  List.zipWith (fun a b => a * b) xs ys

/-- The four gate roles of the cell, named after the weight/bias port names of
`LSTMNode` (`inputWeights`, `forgetMeWeights`, `candidateWeights`,
`outputWeights`). -/
inductive GateRole : Type
  | inputGate
  | forgetMeGate
  | candidateGate
  | outputGate
deriving DecidableEq, Repr

/-- Configuration of an `LSTMNode`: sizes, the four weight matrices and four
bias vectors bound to its input ports, and the two activation choices
(`_activation` and `_recurrentActivation` in the source). -/
structure LSTMConfig (R : Type) where
  inputSize : ℕ
  hiddenSize : ℕ
  inputWeights : List (List R)
  forgetMeWeights : List (List R)
  candidateWeights : List (List R)
  outputWeights : List (List R)
  inputBias : List R
  forgetMeBias : List R
  candidateBias : List R
  outputBias : List R
  activation : R → R
  recurrentActivation : R → R

/-- Weight matrix bound to a gate role. -/
def gateWeights {R : Type} (cfg : LSTMConfig R) : GateRole → List (List R)
  | .inputGate => cfg.inputWeights
  | .forgetMeGate => cfg.forgetMeWeights
  | .candidateGate => cfg.candidateWeights
  | .outputGate => cfg.outputWeights

/-- Bias vector bound to a gate role. -/
def gateBias {R : Type} (cfg : LSTMConfig R) : GateRole → List R
  | .inputGate => cfg.inputBias
  | .forgetMeGate => cfg.forgetMeBias
  | .candidateGate => cfg.candidateBias
  | .outputGate => cfg.outputBias

/-- Activation used by a gate role: the main activation for the candidate
path, the recurrent activation for the input/retention/output gating paths. -/
def gateActFn {R : Type} (cfg : LSTMConfig R) : GateRole → (R → R)
  | .candidateGate => cfg.activation
  | _ => cfg.recurrentActivation

/-- One gate: affine combination of the concatenated (input ++ hidden) vector
with the gate's weights and bias, then the gate's activation, pointwise. -/
def gateOutput {R : Type} [CommRing R] (cfg : LSTMConfig R) (role : GateRole)
    (z : List R) : List R :=
  (vecAdd (matVec (gateWeights cfg role) z) (gateBias cfg role)).map
    (gateActFn cfg role)

/-- Mutable node-local state of an `LSTMNode`: the hidden vector, the cell
vector, and the previously observed value of the reset-trigger line (used for
falling-edge detection). -/
structure LSTMState (R : Type) where
  hidden : List R
  cell : List R
  prevResetValue : ℤ
deriving DecidableEq

/-- Falling edge of the reset line: previous value non-zero, current zero. -/
def fallingEdge (prev cur : ℤ) : Bool :=
  (prev != 0) && (cur == 0)

namespace LSTMNode

/-- Modelled from the spec: the body of `LSTMNode::Reset` is not in the source
tree. Per the spec it clears the hidden and cell state vectors to zero (their
length is the hidden size); it does not touch the edge-detection memory. -/
def Reset {R : Type} [CommRing R] (cfg : LSTMConfig R) (s : LSTMState R) :
    LSTMState R :=
  { s with
    hidden := List.replicate cfg.hiddenSize 0
    cell := List.replicate cfg.hiddenSize 0 }

/-- Whether an evaluation step beginning in state `s` with current reset value
`r` performs the pre-step state clear (a falling edge was observed). -/
def stepClears {R : Type} (s : LSTMState R) (r : ℤ) : Bool :=
  fallingEdge s.prevResetValue r

/-- Modelled from the spec: the gate arithmetic of one evaluation step of
`LSTMNode::Compute` (body not in the source tree). Given previous hidden `h`,
previous cell `c` and input `x`: each gate is an affine-then-activation
transform of `x ++ h`; new cell = retention ⊙ c + input ⊙ candidate;
new hidden = output ⊙ activation(new cell). Returns (new hidden, new cell). -/
def computeCell {R : Type} [CommRing R] (cfg : LSTMConfig R)
    (h c x : List R) : List R × List R :=
  let z := x ++ h
  let i := gateOutput cfg .inputGate z
  let f := gateOutput cfg .forgetMeGate z
  let g := gateOutput cfg .candidateGate z
  let o := gateOutput cfg .outputGate z
  let cNew := vecAdd (vecHadamard f c) (vecHadamard i g)
  let hNew := vecHadamard o (cNew.map cfg.activation)
  (hNew, cNew)

/-- Modelled from the spec: one call of `LSTMNode::Compute` (body not in the
source tree). If a falling edge of the reset line is observed relative to the
previous call, the state is cleared before any gate math; then the gate
arithmetic runs and the updated (hidden, cell) pair replaces the state, the
hidden vector being the step's output. -/
def Compute {R : Type} [CommRing R] (cfg : LSTMConfig R) (s : LSTMState R)
    (x : List R) (r : ℤ) : LSTMState R × List R :=
  let s1 := if stepClears s r then Reset cfg s else s
  let hc := computeCell cfg s1.hidden s1.cell x
  (⟨hc.1, hc.2, r⟩, hc.1)

/-- Direct-evaluation run: outputs of successive `Compute` calls over a finite
sequence of (input vector, reset value) pairs. -/
def ComputeRun {R : Type} [CommRing R] (cfg : LSTMConfig R) (s : LSTMState R) :
    List (List R × ℤ) → List (List R)
  | [] => []
  | (x, r) :: rest =>
      (Compute cfg s x r).2 :: ComputeRun cfg (Compute cfg s x r).1 rest

/-- Per-step record of whether the run's step cleared the state. -/
def clearFlagsRun {R : Type} [CommRing R] (cfg : LSTMConfig R)
    (s : LSTMState R) : List (List R × ℤ) → List Bool
  | [] => []
  | (x, r) :: rest =>
      stepClears s r :: clearFlagsRun cfg (Compute cfg s x r).1 rest

/-- Instructions of the generated routine: the code-generation path emits one
gate computation per gate role, then the cell-state combination, then the
hidden-state combination — the same ordered operation description the direct
evaluation follows. -/
inductive LSTMInstr : Type
  | computeGate (role : GateRole)
  | combineCellState
  | combineHiddenState
deriving DecidableEq, Repr

/-- The ordered gate description both execution paths traverse. -/
def gateOrder : List GateRole :=
  [.inputGate, .forgetMeGate, .candidateGate, .outputGate]

/-- Modelled from the spec: the instruction sequence `LSTMNode::Compile` (body
not in the source tree) appends to the caller-provided function-building
context for one evaluation step: derived mechanically from the same gate
description used by direct evaluation. -/
def Compile : List LSTMInstr :=
  gateOrder.map LSTMInstr.computeGate ++
    [LSTMInstr.combineCellState, LSTMInstr.combineHiddenState]

/-- Execution environment of the generated routine: one register per gate
result plus the hidden and cell buffers (no dynamic allocation: a fixed set of
buffers). -/
structure CellEnv (R : Type) where
  gateRegs : GateRole → List R
  hidden : List R
  cell : List R

/-- Semantics of one emitted instruction on the environment. A gate
computation reads the input and hidden buffers; the cell combination
overwrites the cell buffer from the gate registers and previous cell; the
hidden combination overwrites the hidden buffer from the output register and
the just-written cell buffer. -/
def execInstr {R : Type} [CommRing R] (cfg : LSTMConfig R) (x : List R)
    (e : CellEnv R) : LSTMInstr → CellEnv R
  | .computeGate role =>
      { e with
        gateRegs := Function.update e.gateRegs role
          (gateOutput cfg role (x ++ e.hidden)) }
  | .combineCellState =>
      { e with
        cell := vecAdd (vecHadamard (e.gateRegs GateRole.forgetMeGate) e.cell)
          (vecHadamard (e.gateRegs GateRole.inputGate)
            (e.gateRegs GateRole.candidateGate)) }
  | .combineHiddenState =>
      { e with
        hidden := vecHadamard (e.gateRegs GateRole.outputGate)
          (e.cell.map cfg.activation) }

/-- Running the emitted instruction sequence for one step on concrete buffers:
returns the (hidden, cell) buffers after execution. -/
def runGeneratedCell {R : Type} [CommRing R] (cfg : LSTMConfig R)
    (h c x : List R) : List R × List R :=
  let e := Compile.foldl (execInstr cfg x) ⟨fun _ => [], h, c⟩
  (e.hidden, e.cell)

/-- One step of executing the generated code, with the same reset-edge wrapper
as direct evaluation. -/
def generatedStep {R : Type} [CommRing R] (cfg : LSTMConfig R)
    (s : LSTMState R) (x : List R) (r : ℤ) : LSTMState R × List R :=
  let s1 := if stepClears s r then Reset cfg s else s
  let hc := runGeneratedCell cfg s1.hidden s1.cell x
  (⟨hc.1, hc.2, r⟩, hc.1)

/-- Run of the generated code over a finite (input, reset) sequence. -/
def generatedRun {R : Type} [CommRing R] (cfg : LSTMConfig R)
    (s : LSTMState R) : List (List R × ℤ) → List (List R)
  | [] => []
  | (x, r) :: rest =>
      (generatedStep cfg s x r).2 ::
        generatedRun cfg (generatedStep cfg s x r).1 rest

end LSTMNode

/-- Logical dimension order of a memory layout (`utilities::DimensionOrder`). -/
def DimensionOrder : Type := List ℕ
deriving DecidableEq

/-- Memory layout of a port (`model::PortMemoryLayout`): shape plus logical
dimension order. -/
structure PortMemoryLayout where
  size : List ℕ
  logicalDimensionOrder : DimensionOrder
deriving DecidableEq

/-- Accessor mirroring `PortMemoryLayout::GetLogicalDimensionOrder`. -/
def PortMemoryLayout.GetLogicalDimensionOrder (l : PortMemoryLayout) :
    DimensionOrder :=
  l.logicalDimensionOrder

/-- An `LSTMNode` instance: its bound configuration, its mutable state, and
its input memory layout (`_inputMemoryLayout`). -/
structure LSTMNodeModel (R : Type) where
  cfg : LSTMConfig R
  state : LSTMState R
  inputMemoryLayout : PortMemoryLayout

namespace LSTMNode

/-- Accessor mirroring `LSTMNode::GetInputMemoryLayout`. -/
def GetInputMemoryLayout {R : Type} (n : LSTMNodeModel R) : PortMemoryLayout :=
  n.inputMemoryLayout

/-- Source: `LSTMNode::CanAcceptInputLayout` returns
`GetInputMemoryLayout().GetLogicalDimensionOrder() == order`. A pure,
non-throwing, non-mutating boolean query. -/
def CanAcceptInputLayout {R : Type} (n : LSTMNodeModel R)
    (order : DimensionOrder) : Bool :=
  (GetInputMemoryLayout n).GetLogicalDimensionOrder == order

/-- Source: `LSTMNode::HasState` returns `true`, unconditionally. -/
def HasState {R : Type} (n : LSTMNodeModel R) : Bool :=
  true

end LSTMNode

/-- Error kinds of `utilities::LogicException` that the header can raise. -/
inductive LogicExceptionErrors : Type
  | notImplemented
  | illegalState
deriving DecidableEq, Repr

/-- Exception taxonomy visible at this layer: logic exceptions carry a
distinct error kind; a generic fault is anything else. -/
inductive ELLException : Type
  | logicException (err : LogicExceptionErrors)
  | genericFault
deriving DecidableEq, Repr

/-- An archiver (`utilities::Archiver` / `Unarchiver`): opaque record of
written entries. -/
structure Archiver where
  entries : List ℤ
deriving DecidableEq

namespace LSTMNode

/-- Source: `LSTMNode::WriteToArchive` throws
`LogicException(LogicExceptionErrors::notImplemented)` before touching the
archiver or node. The model returns the node after the call together with the
outcome. -/
def WriteToArchive {R : Type} (n : LSTMNodeModel R) (archiver : Archiver) :
    LSTMNodeModel R × Except ELLException Archiver :=
  (n, .error (.logicException .notImplemented))

/-- Source: `LSTMNode::ReadFromArchive` throws
`LogicException(LogicExceptionErrors::notImplemented)` before touching the
archiver or node. The model returns the node after the call together with the
outcome. -/
def ReadFromArchive {R : Type} (n : LSTMNodeModel R) (archiver : Archiver) :
    LSTMNodeModel R × Except ELLException Archiver :=
  (n, .error (.logicException .notImplemented))

end LSTMNode

/-- The decomposition adapter `LSTMLayerNode`: wraps a trained layer (here its
numeric content) and the reset port reference. -/
structure LSTMLayerNodeModel (R : Type) where
  layer : LSTMConfig R
  resetPort : ℤ

/-- A map compiler argument (`const model::MapCompiler*`): possibly null. -/
def MapCompilerArg : Type := Option Unit

namespace LSTMLayerNode

/-- Source: `LSTMLayerNode::IsCompilable` returns `false` for every adapter
instance and every compiler argument. -/
def IsCompilable {R : Type} (n : LSTMLayerNodeModel R)
    (compiler : MapCompilerArg) : Bool :=
  false

end LSTMLayerNode

/-- Specification-side falling-edge profile of a reset-value sequence, given
the previously observed value: one boolean per step, true exactly at a
non-zero-to-zero transition. -/
def edgeFlags : ℤ → List ℤ → List Bool
  | _, [] => []
  | prev, r :: rs => fallingEdge prev r :: edgeFlags r rs

/-- State after running `Compute` over a whole (input, reset) sequence. -/
def runFinalState {R : Type} [CommRing R] (cfg : LSTMConfig R)
    (s : LSTMState R) : List (List R × ℤ) → LSTMState R
  | [] => s
  | (x, r) :: rest => runFinalState cfg (LSTMNode.Compute cfg s x r).1 rest

/-- The spec's concrete test scenario: hidden size 2, input size 1, all
weights and biases zero except the candidate-gate weight column [1, 1]; the
two activation choices are parameters. -/
def scenarioConfig {R : Type} (act recAct : R → R) [CommRing R] :
    LSTMConfig R :=
  { inputSize := 1
    hiddenSize := 2
    inputWeights := [[0, 0, 0], [0, 0, 0]]
    forgetMeWeights := [[0, 0, 0], [0, 0, 0]]
    candidateWeights := [[1, 0, 0], [1, 0, 0]]
    outputWeights := [[0, 0, 0], [0, 0, 0]]
    inputBias := [0, 0]
    forgetMeBias := [0, 0]
    candidateBias := [0, 0]
    outputBias := [0, 0]
    activation := act
    recurrentActivation := recAct }

/-- A configuration with hidden size 1, input size 1 and every weight and
bias zero; the activation choices are parameters. -/
def zeroConfig {R : Type} (act recAct : R → R) [CommRing R] : LSTMConfig R :=
  { inputSize := 1
    hiddenSize := 1
    inputWeights := [[0, 0]]
    forgetMeWeights := [[0, 0]]
    candidateWeights := [[0, 0]]
    outputWeights := [[0, 0]]
    inputBias := [0]
    forgetMeBias := [0]
    candidateBias := [0]
    outputBias := [0]
    activation := act
    recurrentActivation := recAct }

/-- A trivial integer-valued configuration used for concrete run witnesses. -/
def intConfig : LSTMConfig ℤ :=
  zeroConfig id id

section Theorems

open LSTMNode

/-- Helper: running the emitted instruction sequence on one step's buffers
computes exactly the direct-evaluation gate arithmetic. -/
theorem runGeneratedCell_eq_computeCell {R : Type} [CommRing R]
    (cfg : LSTMConfig R) (h c x : List R) :
    runGeneratedCell cfg h c x = computeCell cfg h c x := by
  simp [runGeneratedCell, Compile, gateOrder, execInstr, computeCell,
    Function.update]

/-- Helper: one step of the generated code equals one `Compute` call. -/
theorem generatedStep_eq_Compute {R : Type} [CommRing R]
    (cfg : LSTMConfig R) (s : LSTMState R) (x : List R) (r : ℤ) :
    generatedStep cfg s x r = Compute cfg s x r := by
  simp only [generatedStep, Compute, runGeneratedCell_eq_computeCell]

/-- C1: for every fixed configuration and every finite (input, reset)
sequence, the sequence of outputs of the direct-evaluation path (`Compute`)
equals, step by step, the sequence of outputs of executing the instruction
sequence the code-generation path (`Compile`) emits; exact equality, hence
within any floating tolerance. -/
theorem compile_refines_compute {R : Type} [CommRing R]
    (cfg : LSTMConfig R) (s : LSTMState R) (steps : List (List R × ℤ)) :
    generatedRun cfg s steps = ComputeRun cfg s steps := by
  induction steps generalizing s with
  | nil => rfl
  | cons p rest ih =>
      obtain ⟨x, r⟩ := p
      simp only [generatedRun, ComputeRun, generatedStep_eq_Compute]
      exact congrArg _ (ih _)

/-- C9: `HasState` returns true for every instance of the primitive node,
regardless of configuration or current state. -/
theorem hasState_always_true {R : Type} (n : LSTMNodeModel R) :
    HasState n = true :=
  rfl

/-- C10: `IsCompilable` on the decomposition adapter returns false for every
adapter instance and every compiler argument, so compilation always requires
refinement into the primitive node first. -/
theorem adapter_never_compilable {R : Type} (n : LSTMLayerNodeModel R)
    (compiler : MapCompilerArg) :
    LSTMLayerNode.IsCompilable n compiler = false :=
  rfl

/-- C5: `CanAcceptInputLayout order` returns true exactly when `order` equals
the logical dimension order of the node's configured input memory layout; it
is a total boolean query (never throws, never modifies the node). -/
theorem canAcceptInputLayout_iff {R : Type} (n : LSTMNodeModel R)
    (order : DimensionOrder) :
    CanAcceptInputLayout n order = true ↔
      order = n.inputMemoryLayout.logicalDimensionOrder := by
  constructor
  · intro hbeq
    exact (beq_iff_eq.mp hbeq).symm
  · intro heq
    exact beq_iff_eq.mpr heq.symm

/-- C4: every attempt to serialize or deserialize the primitive node fails
with the distinct unsupported-operation error
`LogicException notImplemented` (not a generic fault), and the node — its
state and configuration — is unchanged by the failed attempt. -/
theorem archive_unsupported {R : Type} (n : LSTMNodeModel R) (a : Archiver) :
    WriteToArchive n a =
        (n, Except.error (ELLException.logicException
          LogicExceptionErrors.notImplemented)) ∧
      ReadFromArchive n a =
        (n, Except.error (ELLException.logicException
          LogicExceptionErrors.notImplemented)) :=
  ⟨rfl, rfl⟩

/-- C6: the evaluation step is a deterministic function of state and inputs:
two runs from equal initial states and equal (input, reset) sequences produce
identical output sequences. -/
theorem compute_deterministic {R : Type} [CommRing R] (cfg : LSTMConfig R)
    (s₁ s₂ : LSTMState R) (steps₁ steps₂ : List (List R × ℤ))
    (hs : s₁ = s₂) (hsteps : steps₁ = steps₂) :
    ComputeRun cfg s₁ steps₁ = ComputeRun cfg s₂ steps₂ := by
  rw [hs, hsteps]

/-- Witness for C6 at a concrete integer configuration and input sequence. -/
theorem compute_deterministic_witness :
    ComputeRun intConfig ⟨[0], [0], 0⟩ [([1], 1), ([2], 0)] =
      ComputeRun intConfig ⟨[0], [0], 0⟩ [([1], 1), ([2], 0)] :=
  compute_deterministic intConfig ⟨[0], [0], 0⟩ ⟨[0], [0], 0⟩
    [([1], 1), ([2], 0)] [([1], 1), ([2], 0)] rfl rfl

/-- C7: `Reset` sets both the hidden and the cell state vector to all zeros,
and it is idempotent: applying it twice before any evaluation leaves the node
in the same state as applying it once. -/
theorem reset_zeroes_and_idempotent {R : Type} [CommRing R]
    (cfg : LSTMConfig R) (s : LSTMState R) :
    (Reset cfg s).hidden = List.replicate cfg.hiddenSize 0 ∧
      (Reset cfg s).cell = List.replicate cfg.hiddenSize 0 ∧
      Reset cfg (Reset cfg s) = Reset cfg s :=
  ⟨rfl, rfl, rfl⟩

/-- Helper: along any run, the per-step clear record is exactly the
falling-edge profile of the reset-value sequence; in particular each step
clears at most once, and never absent an edge. -/
theorem clearFlagsRun_eq_edgeFlags {R : Type} [CommRing R]
    (cfg : LSTMConfig R) (s : LSTMState R) (steps : List (List R × ℤ)) :
    clearFlagsRun cfg s steps = edgeFlags s.prevResetValue (steps.map Prod.snd) := by
  induction steps generalizing s with
  | nil => rfl
  | cons p rest ih =>
      obtain ⟨x, r⟩ := p
      simp only [clearFlagsRun, List.map, edgeFlags, stepClears]
      exact congrArg _ (ih _)

/-- C3: the state is cleared exactly once per falling edge of the reset line
(non-zero to zero between consecutive steps), at most once per step and never
absent such an edge — the per-step clear record of any run equals the
falling-edge profile of its reset sequence; in particular, for the reset
sequence [1,1,0,0,1,0] over six steps the clears happen exactly at the
transitions into step 3 and into step 6. -/
theorem reset_clears_on_falling_edges {R : Type} [CommRing R]
    (cfg : LSTMConfig R) (s : LSTMState R) (steps : List (List R × ℤ)) :
    clearFlagsRun cfg s steps =
        edgeFlags s.prevResetValue (steps.map Prod.snd) ∧
      clearFlagsRun intConfig ⟨[0], [0], 0⟩
          [([0], 1), ([0], 1), ([0], 0), ([0], 0), ([0], 1), ([0], 0)] =
        [false, false, true, false, false, true] :=
  ⟨clearFlagsRun_eq_edgeFlags cfg s steps, rfl⟩

/-- Helper: the hyperbolic tangent is strictly increasing. -/
theorem tanh_lt_tanh_of_lt {a b : ℝ} (hab : a < b) :
    Real.tanh a < Real.tanh b := by
  rw [Real.tanh_eq_sinh_div_cosh, Real.tanh_eq_sinh_div_cosh,
    div_lt_div_iff₀ (Real.cosh_pos a) (Real.cosh_pos b),
    Real.sinh_eq, Real.cosh_eq, Real.sinh_eq, Real.cosh_eq]
  have h1 : Real.exp a * Real.exp (-b) = Real.exp (a - b) := by
    rw [← Real.exp_add]; ring_nf
  have h2 : Real.exp b * Real.exp (-a) = Real.exp (b - a) := by
    rw [← Real.exp_add]; ring_nf
  have h3 : Real.exp (a - b) < Real.exp (b - a) :=
    Real.exp_lt_exp.mpr (by linarith)
  nlinarith [Real.exp_pos a, Real.exp_pos b, Real.exp_pos (-a),
    Real.exp_pos (-b), h1, h2, h3]

/-- Helper: the hyperbolic tangent is injective. -/
theorem tanh_inj {a b : ℝ} (hab : Real.tanh a = Real.tanh b) : a = b := by
  rcases lt_trichotomy a b with h | h | h
  · exact absurd hab (ne_of_lt (tanh_lt_tanh_of_lt h))
  · exact h
  · exact absurd hab.symm (ne_of_lt (tanh_lt_tanh_of_lt h))

/-- Helper: the hyperbolic tangent vanishes only at zero. -/
theorem tanh_ne_zero {x : ℝ} (hx : x ≠ 0) : Real.tanh x ≠ 0 := by
  intro h
  exact hx (tanh_inj (h.trans Real.tanh_zero.symm))

/-- Helper: one `Compute` step of the spec's concrete scenario configuration
(tanh main activation, logistic-sigmoid recurrent activation), from a state
with equal-shape component vectors and no pending falling edge: every gate
but the candidate outputs 1/2, the candidate outputs tanh of the input, the
cell components become c/2 + tanh(x)/2 and the output components
tanh(cell)/2. -/
theorem scenario_step (x h1 h2 c1 c2 : ℝ) (p r : ℤ)
    (hclear : fallingEdge p r = false) :
    Compute (scenarioConfig Real.tanh (fun t : ℝ => 1 / (1 + Real.exp (-t))))
        ⟨[h1, h2], [c1, c2], p⟩ [x] r =
      (⟨[(1 / 2) * Real.tanh ((1 / 2) * c1 + (1 / 2) * Real.tanh x),
         (1 / 2) * Real.tanh ((1 / 2) * c2 + (1 / 2) * Real.tanh x)],
        [(1 / 2) * c1 + (1 / 2) * Real.tanh x,
         (1 / 2) * c2 + (1 / 2) * Real.tanh x], r⟩,
       [(1 / 2) * Real.tanh ((1 / 2) * c1 + (1 / 2) * Real.tanh x),
        (1 / 2) * Real.tanh ((1 / 2) * c2 + (1 / 2) * Real.tanh x)]) := by
  simp [Compute, stepClears, hclear, computeCell, gateOutput, gateWeights,
    gateBias, gateActFn, vecAdd, vecHadamard, matVec, dot, scenarioConfig,
    Real.exp_zero]
  norm_num

/-- C2: at every evaluation step the updated cell state is
(retention-gate output ⊙ previous cell) + (input-gate output ⊙ candidate-gate
output) and the updated hidden state is output-gate output ⊙ activation(new
cell); and in the spec's concrete scenario (hidden size 2, input size 1, only
the candidate-gate weight column [1,1] non-zero, tanh main activation,
logistic-sigmoid recurrent activation), the first step with input [1.0] and
reset value 1 from the zero state yields retention- and input-gate outputs
1/2, candidate-gate output tanh 1, cell state (1/2)·tanh 1 and output
(1/2)·tanh((1/2)·tanh 1) — exact equalities, hence within 1e-6 of the
hand-computed reference. -/
theorem state_update_combination {R : Type} [CommRing R] (cfg : LSTMConfig R)
    (s : LSTMState R) (x : List R) (r : ℤ) :
    ((Compute cfg s x r).1.cell =
        vecAdd
          (vecHadamard
            (gateOutput cfg GateRole.forgetMeGate
              (x ++ (if stepClears s r then Reset cfg s else s).hidden))
            ((if stepClears s r then Reset cfg s else s).cell))
          (vecHadamard
            (gateOutput cfg GateRole.inputGate
              (x ++ (if stepClears s r then Reset cfg s else s).hidden))
            (gateOutput cfg GateRole.candidateGate
              (x ++ (if stepClears s r then Reset cfg s else s).hidden))) ∧
      (Compute cfg s x r).1.hidden =
        vecHadamard
          (gateOutput cfg GateRole.outputGate
            (x ++ (if stepClears s r then Reset cfg s else s).hidden))
          (((Compute cfg s x r).1.cell).map cfg.activation)) ∧
    (gateOutput (scenarioConfig Real.tanh
          (fun t : ℝ => 1 / (1 + Real.exp (-t)))) GateRole.forgetMeGate
          [1, 0, 0] = [1 / 2, 1 / 2] ∧
      gateOutput (scenarioConfig Real.tanh
          (fun t : ℝ => 1 / (1 + Real.exp (-t)))) GateRole.inputGate
          [1, 0, 0] = [1 / 2, 1 / 2] ∧
      gateOutput (scenarioConfig Real.tanh
          (fun t : ℝ => 1 / (1 + Real.exp (-t)))) GateRole.candidateGate
          [1, 0, 0] = [Real.tanh 1, Real.tanh 1] ∧
      (Compute (scenarioConfig Real.tanh
            (fun t : ℝ => 1 / (1 + Real.exp (-t))))
          ⟨[0, 0], [0, 0], 0⟩ [1] 1).1.cell =
        [(1 / 2) * Real.tanh 1, (1 / 2) * Real.tanh 1] ∧
      (Compute (scenarioConfig Real.tanh
            (fun t : ℝ => 1 / (1 + Real.exp (-t))))
          ⟨[0, 0], [0, 0], 0⟩ [1] 1).2 =
        [(1 / 2) * Real.tanh ((1 / 2) * Real.tanh 1),
         (1 / 2) * Real.tanh ((1 / 2) * Real.tanh 1)]) := by
  have hstep := scenario_step 1 0 0 0 0 0 1 rfl
  refine ⟨⟨rfl, rfl⟩, ?_, ?_, ?_, ?_, ?_⟩
  · simp [gateOutput, gateWeights, gateBias, gateActFn, vecAdd, matVec, dot,
      scenarioConfig, Real.exp_zero]
    norm_num
  · simp [gateOutput, gateWeights, gateBias, gateActFn, vecAdd, matVec, dot,
      scenarioConfig, Real.exp_zero]
    norm_num
  · simp [gateOutput, gateWeights, gateBias, gateActFn, vecAdd, matVec, dot,
      scenarioConfig]
  · rw [hstep]
    norm_num
  · rw [hstep]
    norm_num

/-- Helper: running a concatenated step sequence runs the two parts in
order. -/
theorem runFinalState_append {R : Type} [CommRing R] (cfg : LSTMConfig R)
    (s : LSTMState R) (l₁ l₂ : List (List R × ℤ)) :
    runFinalState cfg s (l₁ ++ l₂) =
      runFinalState cfg (runFinalState cfg s l₁) l₂ := by
  induction l₁ generalizing s with
  | nil => rfl
  | cons p rest ih =>
      obtain ⟨x, r⟩ := p
      simp only [List.cons_append, runFinalState]
      exact ih _

/-- Helper: closed form of the scenario-configuration run that holds the
reset line at 0 and the input at a constant x: after k steps the two cell
components both equal (1 - (1/2)^k)·tanh x, the two hidden components are
equal, and no reset is pending. -/
theorem scenario_runState (x : ℝ) (k : ℕ) :
    ∃ h' : ℝ,
      runFinalState
          (scenarioConfig Real.tanh (fun t : ℝ => 1 / (1 + Real.exp (-t))))
          ⟨[0, 0], [0, 0], 0⟩ (List.replicate k ([x], 0)) =
        ⟨[h', h'],
         [(1 - (1 / 2) ^ k) * Real.tanh x, (1 - (1 / 2) ^ k) * Real.tanh x],
         0⟩ := by
  induction k with
  | zero =>
      refine ⟨0, ?_⟩
      simp [runFinalState]
  | succ k ih =>
      obtain ⟨h', ih⟩ := ih
      refine ⟨(1 / 2) * Real.tanh
        ((1 / 2) * ((1 - (1 / 2) ^ k) * Real.tanh x) +
          (1 / 2) * Real.tanh x), ?_⟩
      rw [List.replicate_succ', runFinalState_append, ih]
      simp only [runFinalState, scenario_step x h' h' _ _ 0 0 rfl]
      have harith :
          (1 / 2) * ((1 - (1 / 2) ^ k) * Real.tanh x) +
              (1 / 2) * Real.tanh x =
            (1 - (1 / 2) ^ (k + 1)) * Real.tanh x := by
        ring
      rw [harith]

/-- C8 counterexample: the claim quantifies over every configuration, but
with the all-zero-weight configuration (tanh main activation, logistic
sigmoid recurrent activation) and the nonzero input [1], the output at step 2
of a run with the reset line held at 0 equals the output at step 2 of the
run whose state was reset immediately before step 2 — the carried state does
not observably influence the output there. -/
theorem state_persistence_counterexample :
    ((1 : ℝ) ≠ 0) ∧
      (Compute (zeroConfig Real.tanh (fun t : ℝ => 1 / (1 + Real.exp (-t))))
          ((Compute (zeroConfig Real.tanh
              (fun t : ℝ => 1 / (1 + Real.exp (-t))))
            ⟨[0], [0], 0⟩ [1] 0).1) [1] 0).2 =
        (Compute (zeroConfig Real.tanh (fun t : ℝ => 1 / (1 + Real.exp (-t))))
          (Reset (zeroConfig Real.tanh (fun t : ℝ => 1 / (1 + Real.exp (-t))))
            ((Compute (zeroConfig Real.tanh
                (fun t : ℝ => 1 / (1 + Real.exp (-t))))
              ⟨[0], [0], 0⟩ [1] 0).1)) [1] 0).2 := by
  constructor
  · norm_num
  · have h1 :
        (Compute (zeroConfig Real.tanh
            (fun t : ℝ => 1 / (1 + Real.exp (-t))))
          ⟨[0], [0], 0⟩ [1] 0).1 = ⟨[0], [0], 0⟩ := by
      simp [Compute, stepClears, fallingEdge, computeCell, gateOutput,
        gateWeights, gateBias, gateActFn, vecAdd, vecHadamard, matVec, dot,
        zeroConfig, Real.tanh_zero]
    have h2 :
        Reset (zeroConfig Real.tanh (fun t : ℝ => 1 / (1 + Real.exp (-t))))
          (⟨[0], [0], 0⟩ : LSTMState ℝ) = ⟨[0], [0], 0⟩ := by
      simp [Reset, zeroConfig]
    rw [h1, h2]

/-- C8 as amended: restricted to the spec's concrete scenario configuration
(the claim is false for arbitrary configurations): for every nonzero constant
input x and every step n ≥ 1, the output at step n+1 of the run with the
reset line held at the non-triggering value 0 throughout differs from the
output at step n+1 of the otherwise identical run whose state was reset
immediately before step n+1. -/
theorem state_persistence_amended (x : ℝ) (hx : x ≠ 0) (n : ℕ)
    (hn : 1 ≤ n) :
    (Compute (scenarioConfig Real.tanh (fun t : ℝ => 1 / (1 + Real.exp (-t))))
        (runFinalState
          (scenarioConfig Real.tanh (fun t : ℝ => 1 / (1 + Real.exp (-t))))
          ⟨[0, 0], [0, 0], 0⟩ (List.replicate n ([x], 0))) [x] 0).2 ≠
      (Compute (scenarioConfig Real.tanh (fun t : ℝ => 1 / (1 + Real.exp (-t))))
        (Reset (scenarioConfig Real.tanh
            (fun t : ℝ => 1 / (1 + Real.exp (-t))))
          (runFinalState
            (scenarioConfig Real.tanh (fun t : ℝ => 1 / (1 + Real.exp (-t))))
            ⟨[0, 0], [0, 0], 0⟩ (List.replicate n ([x], 0)))) [x] 0).2 := by
  obtain ⟨h', hrun⟩ := scenario_runState x n
  rw [hrun]
  have hreset :
      Reset (scenarioConfig Real.tanh (fun t : ℝ => 1 / (1 + Real.exp (-t))))
        (⟨[h', h'],
          [(1 - (1 / 2) ^ n) * Real.tanh x,
           (1 - (1 / 2) ^ n) * Real.tanh x], 0⟩ : LSTMState ℝ) =
      ⟨[0, 0], [0, 0], 0⟩ := by
    simp [Reset, scenarioConfig]
  rw [hreset,
    scenario_step x h' h' ((1 - (1 / 2) ^ n) * Real.tanh x)
      ((1 - (1 / 2) ^ n) * Real.tanh x) 0 0 rfl,
    scenario_step x 0 0 0 0 0 0 rfl]
  intro heq
  have hhead :
      (1 / 2) * Real.tanh
          ((1 / 2) * ((1 - (1 / 2) ^ n) * Real.tanh x) +
            (1 / 2) * Real.tanh x) =
        (1 / 2) * Real.tanh ((1 / 2) * 0 + (1 / 2) * Real.tanh x) :=
    (List.cons.injEq _ _ _ _ ▸ heq).1
  have htanh := mul_left_cancel₀ (by norm_num : (1 / 2 : ℝ) ≠ 0) hhead
  have harg := tanh_inj htanh
  have hc : (1 - (1 / 2) ^ n) * Real.tanh x = 0 := by
    have := mul_left_cancel₀ (by norm_num : (1 / 2 : ℝ) ≠ 0)
      (by linarith [harg] : (1 / 2 : ℝ) * ((1 - (1 / 2) ^ n) * Real.tanh x) =
        (1 / 2) * 0)
    simpa using this
  rcases mul_eq_zero.mp hc with hfac | htz
  · have hlt : ((1 : ℝ) / 2) ^ n < 1 :=
      pow_lt_one₀ (by norm_num) (by norm_num) (by omega)
    have : ((1 : ℝ) / 2) ^ n = 1 := by linarith
    linarith
  · exact tanh_ne_zero hx htz

/-- Witness for the amended C8 at the concrete input x = 1 and step n = 1. -/
theorem state_persistence_amended_witness :
    ((1 : ℝ) ≠ 0) ∧ 1 ≤ 1 ∧
      (Compute (scenarioConfig Real.tanh
          (fun t : ℝ => 1 / (1 + Real.exp (-t))))
        (runFinalState
          (scenarioConfig Real.tanh (fun t : ℝ => 1 / (1 + Real.exp (-t))))
          ⟨[0, 0], [0, 0], 0⟩ (List.replicate 1 ([(1 : ℝ)], 0))) [1] 0).2 ≠
      (Compute (scenarioConfig Real.tanh
          (fun t : ℝ => 1 / (1 + Real.exp (-t))))
        (Reset (scenarioConfig Real.tanh
            (fun t : ℝ => 1 / (1 + Real.exp (-t))))
          (runFinalState
            (scenarioConfig Real.tanh
              (fun t : ℝ => 1 / (1 + Real.exp (-t))))
            ⟨[0, 0], [0, 0], 0⟩ (List.replicate 1 ([(1 : ℝ)], 0)))) [1] 0).2 :=
  ⟨by norm_num, le_refl 1,
    state_persistence_amended 1 (by norm_num) 1 (le_refl 1)⟩

end Theorems

end ELL
